import Mathlib

/-!
Verification development for the pktreplay packet replay engine.

The definitions below are a shallow embedding of the Rust sources:
  - src/input.rs   : Packet, PacketIter
  - src/channel.rs : the bounded channel with watermarks (as a labelled
                     transition system over the shared mutex-guarded state)
  - src/pipe.rs    : Stats, the delayers, and the writer loop
  - src/main.rs    : the reader loop of input_task

Machine integers (u64, usize) are modelled as Nat; all values involved stay
far below 2^64 so wrap-around never matters for the stated properties.
Monotonic instants and SystemTime values are modelled as Nat nanoseconds.
-/

set_option linter.unusedVariables false

/-- Raw packet read from input (src/input.rs, struct Packet): payload bytes
and the capture timestamp (SystemTime, modelled as Nat nanoseconds). -/
structure Packet where
  data : List Nat
  when : Nat
  deriving DecidableEq

/-! ## Input iterator (src/input.rs, PacketIter::next)

The file-reading iterator first pulls the next packet from the underlying
pcap iterator and only then consults the stop flag; `underlying` models the
value the pcap iterator returned inside this very call. -/

/-- One call of PacketIter::next (src/input.rs lines 89-107): match on the
underlying pcap iterator result, then check the stop flag; a packet pulled
from the pcap iterator is discarded when the stop flag is observed. -/
def PacketIter.next (underlying : Option Packet) (sig : Bool) : Option Packet :=
  match underlying with
  | none => none
  | some pkt => if sig then none else some pkt

/-! ## Delayers (src/pipe.rs) -/

/-- State of the pps delayer (src/pipe.rs, struct PpsDelay): start instant
(ns), number of wait_time_for calls so far, target packets per second. -/
structure PpsDelay where
  start : Nat
  packets : Nat
  pps : Nat
  deriving DecidableEq

/-- PpsDelay::wait_time_for (src/pipe.rs lines 232-248).  Times are Nat
nanoseconds; Duration::from_micros(x) is x * 1000 ns; `now` is the value of
Instant::now() at the call, so elapsed = now - start. -/
def PpsDelay.wait_time_for (d : PpsDelay) (now : Nat) : Option Nat × PpsDelay :=
  if d.packets = 0 then
    (none, { d with packets := d.packets + 1 })
  else
    let elapsed := now - d.start
    let estimated := d.packets * 1000000 / d.pps * 1000
    if estimated > elapsed then
      (some (estimated - elapsed), { d with packets := d.packets + 1 })
    else
      (none, { d with packets := d.packets + 1 })

/-- State of the original-rate delayer (src/pipe.rs, struct PacketRateDelay):
the timestamp of the previous packet, if any. -/
structure PacketRateDelay where
  last_packet : Option Nat
  deriving DecidableEq

/-- SystemTime::duration_since: Ok(a - b) when b <= a, Err otherwise
(`.ok()` turns the Err case into none). -/
def duration_since (a b : Nat) : Option Nat :=
  if b ≤ a then some (a - b) else none

/-- PacketRateDelay::wait_time_for (src/pipe.rs lines 270-276): result is
last_packet.and_then(|t| pkt.when.duration_since(t).ok()), and last_packet
is set to pkt.when in every case. -/
def PacketRateDelay.wait_time_for (d : PacketRateDelay) (pkt : Packet) :
    Option Nat × PacketRateDelay :=
  (Option.bind d.last_packet (fun t => duration_since pkt.when t),
   { last_packet := some pkt.when })

/-! ## Statistics (src/pipe.rs, struct Stats)

The mpsc sender of summary strings is modelled by an `Option Unit`
(present or absent); whether an individual send succeeds is an input of
update (`sendOk`), since the code only logs a failed send. -/

/-- Stats (src/pipe.rs lines 17-32).  Instants are Nat nanoseconds. -/
structure Stats where
  packets : Nat
  bytes : Nat
  invalid : Nat
  start : Nat
  interval : Option Nat
  last_stat : Nat
  sender : Option Unit
  deriving DecidableEq

/-- Stats::default (src/pipe.rs lines 34-46): zero counters, both clocks at
Instant::now(), no interval and no sender. -/
def Stats.default (now : Nat) : Stats :=
  { packets := 0, bytes := 0, invalid := 0, start := now,
    interval := none, last_stat := now, sender := none }

/-- Stats::periodic (src/pipe.rs lines 109-119): Default::default() with
sender and interval filled in. -/
def Stats.periodic (period : Nat) (now : Nat) : Stats :=
  { Stats.default now with sender := some (), interval := some period }

/-- Stats::update (src/pipe.rs lines 54-74).  `now` is Instant::now() at the
call, so last_stat.elapsed() = now - last_stat.  The result is none exactly
when the code would panic on sender.as_ref().unwrap(); a send failure
(`sendOk = false`) is only logged, so it does not influence the result. -/
def Stats.update (s : Stats) (b : Nat) (now : Nat) (sendOk : Bool) : Option Stats :=
  let s1 := if b = 0 then { s with invalid := s.invalid + 1 }
            else { s with packets := s.packets + 1 }
  let s2 := { s1 with bytes := s1.bytes + b }
  match s2.interval with
  | none => some s2
  | some val =>
    if val < now - s2.last_stat then
      match s2.sender with
      | none => none
      | some _ => some { s2 with last_stat := now }
    else
      some s2

/-- Stats::summary (src/pipe.rs lines 77-97) reads the counters and formats
them; the numeric content of the summary is the tuple
(packets, invalid, bytes, elapsed since start). -/
def Stats.summary (s : Stats) (now : Nat) : Nat × Nat × Nat × Nat :=
  (s.packets, s.invalid, s.bytes, now - s.start)

/-- Stats::reset (src/pipe.rs lines 100-105): zero the counters and set
start to Instant::now(); last_stat, interval and sender are untouched. -/
def Stats.reset (s : Stats) (now : Nat) : Stats :=
  { s with bytes := 0, packets := 0, invalid := 0, start := now }

/-- The safety invariant relating the two optional reporting fields: an
interval is only ever configured together with a sender. -/
def StatsInv (s : Stats) : Prop :=
  s.interval.isSome = true → s.sender.isSome = true

instance (s : Stats) : Decidable (StatsInv s) := by
  unfold StatsInv; infer_instance

/-! ## Writer loop (src/pipe.rs, write_packets)

One iteration of the writer loop consumes one packet from the channel; the
facts about it that the loop inspects are the result of
output.write_packet (Ok length or a write error), the value of
Instant::now() during stats.update, and whether the summary send (if one
happens) succeeds.  A run of the loop is a list of such events. -/

/-- Observable data of one writer-loop iteration. -/
structure WriteEv where
  res : Except Unit Nat
  now : Nat
  sendOk : Bool

/-- Whether the event's write result is Ok. -/
def evIsOk (ev : WriteEv) : Bool :=
  match ev.res with
  | Except.ok _ => true
  | Except.error _ => false

/-- The for-loop of write_packets (src/pipe.rs lines 289-303): on Ok(len)
update the stats and continue, on a write error log and break, returning
the statistics accumulated so far.  none models a panic inside update. -/
def writeLoop (st : Stats) : List WriteEv → Option Stats
  | [] => some st
  | ev :: rest =>
    match ev.res with
    | Except.ok len =>
      match Stats.update st len ev.now ev.sendOk with
      | some st' => writeLoop st' rest
      | none => none
    | Except.error _ => some st

/-- write_packets (src/pipe.rs lines 281-305): reset the stats, run the
loop, and return Ok of the accumulated stats.  The sleep taken for the
delayer does not touch the statistics, so it is not part of the state. -/
def write_packets (st : Stats) (now0 : Nat) (evs : List WriteEv) :
    Option (Except Unit Stats) :=
  Option.map Except.ok (writeLoop (Stats.reset st now0) evs)

/-! ## Reader loop of input_task (src/main.rs lines 79-120)

The spawned reader thread loops: open the input, read its packets (wrapped
in .take(n) when a limit is given), push them to the channel, and repeat
while loop_file is set and stop is unset.  The model below assumes every
open succeeds, every channel write succeeds, and the stop flag stays false;
`fuel` bounds the number of loop iterations so the function is total.  The
returned Bool tells whether the loop terminated by itself within `fuel`
iterations (false = it was still looping when the fuel ran out). -/

/-- Packets pushed to the channel by the reader loop of input_task, given
the file's packet list, the loop flag and the count limit (-c). -/
def input_task_writes (file : List Nat) (loop_file : Bool) (limit : Option Nat) :
    Nat → List Nat × Bool
  | 0 => ([], false)
  | fuel + 1 =>
    let pass : List Nat :=
      match limit with
      | some n => file.take n
      | none => file
    if loop_file then
      let r := input_task_writes file loop_file limit fuel
      (pass ++ r.1, r.2)
    else
      (pass, true)

/-! ## The bounded channel (src/channel.rs)

The shared state guarded by the mutex is ChannelContext {packets, paused};
around it live the FIFO queue contents, the phase of the single producer,
whether the Rx half is still alive, and the stop flag.  Every transition of
the labelled step relation below is one critical section of the code:

  - sendNow / sendNowFail : Tx::write_packet when the wait loop is not
    entered (lines 118-129); the send fails iff Rx has been dropped;
  - pauseEnter / pauseEnterPre : Tx::write_packet reaching cvar.wait
    (lines 119-124), with and without packets >= hi at entry;
  - wakeSend / wakeFail : the paused producer resuming (paused is false
    again) and finishing lines 126-129;
  - consume : one successful IntoRxIter::next receive (lines 66-76);
  - consumeEnd : IntoRxIter::next observing the stop flag (lines 62-64);
  - dropRx : Rx::drop (lines 91-102);
  - setFlagStop : a signal handler setting the stop flag. -/

/-- Phase of the single producer thread with respect to write_packet. -/
inductive ProdPhase
  | idle : ProdPhase
  | waiting : Nat → ProdPhase
  deriving DecidableEq

/-- Global state of one channel: the mutex-guarded ChannelContext
(packets, paused), the FIFO contents, the producer phase, whether Rx is
alive, and the stop flag.  Packets are identified by Nat ids. -/
structure ChanState where
  packets : Nat
  paused : Bool
  queue : List Nat
  prod : ProdPhase
  rxLive : Bool
  stop : Bool
  deriving DecidableEq

/-- Labels naming what a channel transition did. -/
inductive Lab
  | sent : Nat → Lab
  | sendFailed : Nat → Lab
  | enterWait : Nat → Lab
  | consumed : Nat → Lab
  | rxEnd : Lab
  | rxDropped : Lab
  | sigStop : Lab
  deriving DecidableEq

/-- Labelled transitions of the channel, for watermarks hi and lo. -/
inductive Step (hi lo : Nat) : ChanState → Lab → ChanState → Prop
  | sendNow (s : ChanState) (p : Nat) :
      s.prod = ProdPhase.idle → s.packets < hi → s.paused = false →
      s.rxLive = true →
      Step hi lo s (Lab.sent p)
        { s with queue := s.queue ++ [p], packets := s.packets + 1 }
  | sendNowFail (s : ChanState) (p : Nat) :
      s.prod = ProdPhase.idle → s.packets < hi → s.paused = false →
      s.rxLive = false →
      Step hi lo s (Lab.sendFailed p) s
  | pauseEnter (s : ChanState) (p : Nat) :
      s.prod = ProdPhase.idle → hi ≤ s.packets →
      Step hi lo s (Lab.enterWait p)
        { s with paused := true, prod := ProdPhase.waiting p }
  | pauseEnterPre (s : ChanState) (p : Nat) :
      s.prod = ProdPhase.idle → s.packets < hi → s.paused = true →
      Step hi lo s (Lab.enterWait p) { s with prod := ProdPhase.waiting p }
  | wakeSend (s : ChanState) (p : Nat) :
      s.prod = ProdPhase.waiting p → s.paused = false → s.rxLive = true →
      Step hi lo s (Lab.sent p)
        { s with queue := s.queue ++ [p], packets := s.packets + 1,
                 prod := ProdPhase.idle }
  | wakeFail (s : ChanState) (p : Nat) :
      s.prod = ProdPhase.waiting p → s.paused = false → s.rxLive = false →
      Step hi lo s (Lab.sendFailed p) { s with prod := ProdPhase.idle }
  | consume (s : ChanState) (p : Nat) (rest : List Nat) :
      s.rxLive = true → s.stop = false → s.queue = p :: rest →
      Step hi lo s (Lab.consumed p)
        { s with queue := rest, packets := s.packets - 1,
                 paused := if s.packets - 1 < lo then false else s.paused }
  | consumeEnd (s : ChanState) :
      s.rxLive = true → s.stop = true →
      Step hi lo s Lab.rxEnd s
  | dropRx (s : ChanState) :
      s.rxLive = true →
      Step hi lo s Lab.rxDropped
        { s with rxLive := false, packets := 0, paused := false }
  | setFlagStop (s : ChanState) :
      Step hi lo s Lab.sigStop { s with stop := true }

/-- Unlabelled step relation. -/
def chanStep (hi lo : Nat) (a b : ChanState) : Prop :=
  ∃ l, Step hi lo a l b

/-- Initial channel state produced by create (src/channel.rs lines 140-163):
empty context, empty FIFO, producer idle, Rx alive, stop unset. -/
def chanInit : ChanState :=
  { packets := 0, paused := false, queue := [], prod := ProdPhase.idle,
    rxLive := true, stop := false }

/-- Reachability from the freshly created channel. -/
def Reachable (hi lo : Nat) (s : ChanState) : Prop :=
  Relation.ReflTransGen (chanStep hi lo) chanInit s

/-- Inductive invariant of the channel: paused implies the producer is
parked in the condvar wait, and a parked producer whose pause flag has been
cleared sees fewer than lo packets, or zero packets (the Rx::drop path). -/
def ChanInv (lo : Nat) (s : ChanState) : Prop :=
  (s.paused = true → ∃ p, s.prod = ProdPhase.waiting p) ∧
  (∀ p, s.prod = ProdPhase.waiting p → s.paused = false →
    s.packets < lo ∨ s.packets = 0)

/-! ## Theorems -/

/-- C6: PpsDelay.wait_time_for returns none on the first call (packets = 0)
and bumps the counter; on the k-th call with k at least 1 it returns some
of k * 1000000 / pps microseconds (as nanoseconds) minus the elapsed time
since init exactly when that difference is positive (elapsed < estimated
over Nat), and none otherwise. -/
theorem pps_wait_time_spec (d : PpsDelay) (now : Nat) :
    (d.packets = 0 →
      (PpsDelay.wait_time_for d now).1 = none ∧
      (PpsDelay.wait_time_for d now).2 = { d with packets := 1 }) ∧
    (1 ≤ d.packets →
      ((PpsDelay.wait_time_for d now).1 =
        if now - d.start < d.packets * 1000000 / d.pps * 1000
        then some (d.packets * 1000000 / d.pps * 1000 - (now - d.start))
        else none) ∧
      (PpsDelay.wait_time_for d now).2 = { d with packets := d.packets + 1 }) := by
  constructor
  · intro h0
    constructor
    · simp [PpsDelay.wait_time_for, h0]
    · simp [PpsDelay.wait_time_for, h0]
  · intro h1
    have h0 : ¬ d.packets = 0 := by omega
    constructor
    · by_cases hlt : now - d.start < d.packets * 1000000 / d.pps * 1000 <;>
        simp [PpsDelay.wait_time_for, h0, hlt]
    · by_cases hlt : now - d.start < d.packets * 1000000 / d.pps * 1000 <;>
        simp [PpsDelay.wait_time_for, h0, hlt]

/-- C6 witness: at pps = 100, one packet already sent, 5ns elapsed, the
wait is 10000 microseconds minus the 5 elapsed nanoseconds. -/
theorem pps_wait_time_spec_witness :
    (PpsDelay.wait_time_for ⟨0, 1, 100⟩ 5).1 = some 9999995 := by
  have h := (pps_wait_time_spec ⟨0, 1, 100⟩ 5).2 (by decide)
  rw [h.1]
  decide

/-- C7: PacketRateDelay.wait_time_for records the packet timestamp in every
case; it returns none for the first packet, the non-negative difference
pkt.when - last for a later packet (zero difference included, so equal
timestamps yield a zero wait), and none when time ran backward. -/
theorem packet_rate_wait_spec (d : PacketRateDelay) (pkt : Packet) :
    ((PacketRateDelay.wait_time_for d pkt).2.last_packet = some pkt.when) ∧
    (d.last_packet = none → (PacketRateDelay.wait_time_for d pkt).1 = none) ∧
    (∀ t, d.last_packet = some t → t ≤ pkt.when →
      (PacketRateDelay.wait_time_for d pkt).1 = some (pkt.when - t)) ∧
    (∀ t, d.last_packet = some t → pkt.when < t →
      (PacketRateDelay.wait_time_for d pkt).1 = none) ∧
    (d.last_packet = some pkt.when →
      (PacketRateDelay.wait_time_for d pkt).1 = some 0) := by
  refine ⟨rfl, ?_, ?_, ?_, ?_⟩
  · intro h
    simp [PacketRateDelay.wait_time_for, h]
  · intro t ht hle
    simp [PacketRateDelay.wait_time_for, ht, duration_since, hle]
  · intro t ht hlt
    simp [PacketRateDelay.wait_time_for, ht, duration_since, Nat.not_le.mpr hlt]
  · intro h
    simp [PacketRateDelay.wait_time_for, h, duration_since]

/-- C7 witness: previous timestamp 7, current packet at 10, wait is 3. -/
theorem packet_rate_wait_spec_witness :
    (PacketRateDelay.wait_time_for ⟨some 7⟩ ⟨[1], 10⟩).1 = some 3 :=
  (packet_rate_wait_spec ⟨some 7⟩ ⟨[1], 10⟩).2.2.1 7 rfl (by decide)

/-- C10: a PacketIter::next call that observes the stop flag returns none
even when the underlying pcap iterator already yielded a packet inside the
same call; that packet is silently discarded.  Without the flag set the
packet is delivered. -/
theorem packet_iter_stop_discards (p : Packet) :
    PacketIter.next (some p) true = none ∧
    PacketIter.next (some p) false = some p ∧
    PacketIter.next none false = none :=
  ⟨rfl, rfl, rfl⟩

/-- C1: the count limit is re-applied to every file pass because the reader
loop rebuilds the take(n) iterator after each open, so a 7-packet file with
looping and count 20 pushes 7 packets per pass and never terminates: after
three passes 21 packets have been written (never exactly 20), and the loop
has not terminated at any fuel. -/
theorem input_task_loop_count_divergence :
    (∀ fuel, (input_task_writes [0, 1, 2, 3, 4, 5, 6] true (some 20) fuel).2 = false) ∧
    (input_task_writes [0, 1, 2, 3, 4, 5, 6] true (some 20) 3).1.length = 21 ∧
    (input_task_writes [0, 1, 2, 3, 4, 5, 6] true (some 20) 3).1 =
      [0, 1, 2, 3, 4, 5, 6, 0, 1, 2, 3, 4, 5, 6, 0, 1, 2, 3, 4, 5, 6] := by
  refine ⟨?_, rfl, rfl⟩
  intro fuel
  induction fuel with
  | zero => rfl
  | succ n ih => simpa [input_task_writes] using ih

/-- Helper: update computes to an explicit structure literal whenever the
interval-implies-sender invariant holds. -/
theorem statsUpdate_eq (s : Stats) (b now : Nat) (ok : Bool) (hs : StatsInv s) :
    Stats.update s b now ok = some
      { s with
        invalid := if b = 0 then s.invalid + 1 else s.invalid,
        packets := if b = 0 then s.packets else s.packets + 1,
        bytes := s.bytes + b,
        last_stat := match s.interval with
          | some v => if v < now - s.last_stat then now else s.last_stat
          | none => s.last_stat } := by
  cases hint : s.interval with
  | none =>
    by_cases hb : b = 0 <;> simp [Stats.update, hb, hint]
  | some v =>
    have hsend : s.sender.isSome = true := hs (by simp [hint])
    cases hsd : s.sender with
    | none => simp [hsd] at hsend
    | some u =>
      by_cases hlt : v < now - s.last_stat <;>
        by_cases hb : b = 0 <;>
          simp [Stats.update, hb, hint, hsd, hlt]

/-- Helper: update succeeds under the invariant and does not change the
interval or sender fields. -/
theorem statsUpdate_total (s : Stats) (b now : Nat) (ok : Bool) (hs : StatsInv s) :
    ∃ s', Stats.update s b now ok = some s' ∧ s'.interval = s.interval ∧
      s'.sender = s.sender :=
  ⟨_, statsUpdate_eq s b now ok hs, rfl, rfl⟩

/-- Helper: update preserves the invariant. -/
theorem statsInv_update (s s' : Stats) (b now : Nat) (ok : Bool) (hs : StatsInv s)
    (he : Stats.update s b now ok = some s') : StatsInv s' := by
  obtain ⟨s'', he2, hi2, hs2⟩ := statsUpdate_total s b now ok hs
  rw [he] at he2
  injection he2 with h3
  subst h3
  intro hx
  rw [hs2]
  exact hs (hi2 ▸ hx)

/-- Helper: reset preserves the invariant (it touches neither interval nor
sender). -/
theorem statsInv_reset (s : Stats) (now : Nat) (hs : StatsInv s) :
    StatsInv (Stats.reset s now) := fun hx => hs hx

/-- Concrete periodic Stats for the reporting boundary counterexample:
interval of 5, last report at 0. -/
def statsC3 : Stats :=
  { packets := 0, bytes := 0, invalid := 0, start := 0,
    interval := some 5, last_stat := 0, sender := some () }

/-- C3 counterexample: when the elapsed time since the last report equals
the interval (both 5), update does not send a report: last_stat stays 0
instead of becoming now = 5, so the claimed trigger condition
elapsed at least interval is wrong at the equality boundary. -/
theorem stats_update_boundary_counterexample :
    Option.map Stats.last_stat (Stats.update statsC3 1 5 true) = some 0 ∧
    Option.map Stats.last_stat (Stats.update statsC3 1 5 true) ≠ some 5 := by
  constructor
  · rfl
  · decide

/-- C3 (amended): update increments invalid when bytes = 0 and packets
otherwise, always adds bytes to the total, sends a report exactly when
now - last_report is strictly greater than the interval (equality does not
report) and then sets last_report to now, and the result does not depend on
whether the report send succeeded. -/
theorem stats_update_spec (s : Stats) (b now : Nat) (ok : Bool) (h : StatsInv s) :
    ∃ s', Stats.update s b now ok = some s' ∧
      s'.invalid = (if b = 0 then s.invalid + 1 else s.invalid) ∧
      s'.packets = (if b = 0 then s.packets else s.packets + 1) ∧
      s'.bytes = s.bytes + b ∧
      s'.last_stat = (match s.interval with
        | some v => if v < now - s.last_stat then now else s.last_stat
        | none => s.last_stat) ∧
      Stats.update s b now true = Stats.update s b now false := by
  refine ⟨_, statsUpdate_eq s b now ok h, rfl, rfl, rfl, rfl, ?_⟩
  rw [statsUpdate_eq s b now true h, statsUpdate_eq s b now false h]

/-- C3 witness: the amended characterization applies to the concrete
periodic stats at a strictly larger elapsed time. -/
theorem stats_update_spec_witness :
    (Stats.update statsC3 1 6 true).isSome = true := by
  obtain ⟨s', he, hrest⟩ := stats_update_spec statsC3 1 6 true (by decide)
  simp [he]

/-- C8: both public constructors establish interval-implies-sender, update
and reset preserve it, and under it update never reaches the sender unwrap
with sender absent (it never returns none, i.e. never panics). -/
theorem stats_inv_safety :
    (∀ now, StatsInv (Stats.default now)) ∧
    (∀ p now, StatsInv (Stats.periodic p now)) ∧
    (∀ s b now ok, StatsInv s → (Stats.update s b now ok).isSome = true) ∧
    (∀ s b now ok s', StatsInv s → Stats.update s b now ok = some s' →
      StatsInv s') ∧
    (∀ s now, StatsInv s → StatsInv (Stats.reset s now)) := by
  refine ⟨?_, ?_, ?_, ?_, ?_⟩
  · intro now hx
    simp [Stats.default] at hx
  · intro p now hx
    simp [Stats.periodic, Stats.default]
  · intro s b now ok h
    rw [statsUpdate_eq s b now ok h]
    rfl
  · intro s b now ok s' h he
    exact statsInv_update s s' b now ok h he
  · intro s now h
    exact statsInv_reset s now h

/-- C8 witness: update applied to a periodic Stats succeeds. -/
theorem stats_inv_safety_witness :
    (Stats.update (Stats.periodic 5 0) 100 3 true).isSome = true :=
  stats_inv_safety.2.2.1 (Stats.periodic 5 0) 100 3 true (by decide)

/-- Helper: the writer loop never fails under the stats invariant, and the
events after the first write error do not influence the result. -/
theorem writeLoop_ok (evs : List WriteEv) :
    ∀ st : Stats, StatsInv st →
      ∃ fs, writeLoop st evs = some fs ∧
        writeLoop st (evs.takeWhile evIsOk) = some fs := by
  induction evs with
  | nil =>
    intro st h
    exact ⟨st, rfl, rfl⟩
  | cons ev rest ih =>
    intro st h
    cases hres : ev.res with
    | error e =>
      refine ⟨st, ?_, ?_⟩
      · simp [writeLoop, hres]
      · simp [List.takeWhile, evIsOk, hres, writeLoop]
    | ok len =>
      obtain ⟨st', he, hint, hsend⟩ := statsUpdate_total st len ev.now ev.sendOk h
      have h' : StatsInv st' := statsInv_update st st' len ev.now ev.sendOk h he
      obtain ⟨fs, h1, h2⟩ := ih st' h'
      refine ⟨fs, ?_, ?_⟩
      · simp [writeLoop, hres, he, h1]
      · simp [List.takeWhile, evIsOk, hres, writeLoop, he, h2]

/-- C5: an output write error breaks the writer loop but write_packets
still returns Ok carrying the statistics accumulated before the error;
no event after the first error influences the result, and a result is
always produced (no panic) under the stats invariant. -/
theorem write_packets_ok (st : Stats) (now0 : Nat) (evs : List WriteEv)
    (h : StatsInv st) :
    ∃ fs, write_packets st now0 evs = some (Except.ok fs) ∧
      writeLoop (Stats.reset st now0) (evs.takeWhile evIsOk) = some fs := by
  obtain ⟨fs, h1, h2⟩ :=
    writeLoop_ok evs (Stats.reset st now0) (statsInv_reset st now0 h)
  exact ⟨fs, by simp [write_packets, h1], h2⟩

/-- Concrete writer-loop run for the C5 witness: one good write, one write
error, one more event after the error. -/
def evsC5 : List WriteEv :=
  [⟨Except.ok 5, 1, true⟩, ⟨Except.error (), 2, true⟩, ⟨Except.ok 3, 3, true⟩]

/-- C5 witness: the writer returns a value on the concrete run containing a
write error. -/
theorem write_packets_ok_witness :
    (write_packets (Stats.default 0) 0 evsC5).isSome = true := by
  obtain ⟨fs, h1, h2⟩ := write_packets_ok (Stats.default 0) 0 evsC5 (by decide)
  simp [h1]

/-- Helper: the invariant holds in the initial channel state. -/
theorem chanInv_init (lo : Nat) : ChanInv lo chanInit := by
  constructor
  · intro h
    simp [chanInit] at h
  · intro p hp
    simp [chanInit] at hp

/-- Helper: every channel transition preserves the invariant. -/
theorem chanInv_step (hi lo : Nat) (s s' : ChanState) (l : Lab)
    (h : ChanInv lo s) (hs : Step hi lo s l s') : ChanInv lo s' := by
  obtain ⟨h1, h2⟩ := h
  cases hs with
  | sendNow p hp hlt hpa hrx =>
    refine ⟨?_, ?_⟩
    · intro hx
      simp [hpa] at hx
    · intro q hq hx
      simp [hp] at hq
  | sendNowFail p hp hlt hpa hrx =>
    exact ⟨h1, h2⟩
  | pauseEnter p hp hge =>
    refine ⟨?_, ?_⟩
    · intro hx
      exact ⟨p, rfl⟩
    · intro q hq hx
      simp at hx
  | pauseEnterPre p hp hlt hpa =>
    obtain ⟨q, hq⟩ := h1 hpa
    rw [hp] at hq
    exact absurd hq (by simp)
  | wakeSend p hp hpa hrx =>
    refine ⟨?_, ?_⟩
    · intro hx
      simp [hpa] at hx
    · intro q hq hx
      simp at hq
  | wakeFail p hp hpa hrx =>
    refine ⟨?_, ?_⟩
    · intro hx
      simp [hpa] at hx
    · intro q hq hx
      simp at hq
  | consume p rest hrx hst hq =>
    refine ⟨?_, ?_⟩
    · intro hx
      by_cases hc : s.packets - 1 < lo
      · simp [hc] at hx
      · simp [hc] at hx
        exact h1 hx
    · intro q hq2 hx
      by_cases hc : s.packets - 1 < lo
      · exact Or.inl hc
      · simp [hc] at hx
        have := h2 q hq2 hx
        show s.packets - 1 < lo ∨ s.packets - 1 = 0
        omega
  | consumeEnd hrx hst =>
    exact ⟨h1, h2⟩
  | dropRx hrx =>
    refine ⟨?_, ?_⟩
    · intro hx
      simp at hx
    · intro q hq hx
      exact Or.inr rfl
  | setFlagStop =>
    exact ⟨h1, h2⟩

/-- Helper: the invariant holds in every reachable channel state. -/
theorem chanInv_reachable (hi lo : Nat) (s : ChanState)
    (h : Reachable hi lo s) : ChanInv lo s := by
  induction h with
  | refl => exact chanInv_init lo
  | tail hab hbc ih =>
    obtain ⟨l, hstep⟩ := hbc
    exact chanInv_step hi lo _ _ l ih hstep

/-- C4 (amended): in every reachable channel state, entering the
write_packet condvar wait implies packets is at least hi, and a resume of
the waiting producer (the transition from waiting back to idle, whether by
consumer wakeup or after Rx teardown) happens with packets < lo or
packets = 0; the packets = 0 disjunct is needed because Rx teardown zeroes
the counter, which is below lo only when lo is at least 1. -/
theorem chan_watermark (hi lo : Nat) (s s' : ChanState) (l : Lab)
    (hr : Reachable hi lo s) (hs : Step hi lo s l s') :
    ((∃ p, l = Lab.enterWait p) → hi ≤ s.packets) ∧
    ((∃ p, s.prod = ProdPhase.waiting p) → s'.prod = ProdPhase.idle →
      s.packets < lo ∨ s.packets = 0) := by
  obtain ⟨h1, h2⟩ := chanInv_reachable hi lo s hr
  cases hs with
  | sendNow p hp hlt hpa hrx =>
    refine ⟨?_, ?_⟩
    · rintro ⟨q, hq⟩
      simp at hq
    · rintro ⟨q, hq⟩ hq2
      simp [hp] at hq
  | sendNowFail p hp hlt hpa hrx =>
    refine ⟨?_, ?_⟩
    · rintro ⟨q, hq⟩
      simp at hq
    · rintro ⟨q, hq⟩ hq2
      simp [hp] at hq
  | pauseEnter p hp hge =>
    refine ⟨?_, ?_⟩
    · intro hq
      exact hge
    · rintro ⟨q, hq⟩ hq2
      simp [hp] at hq
  | pauseEnterPre p hp hlt hpa =>
    obtain ⟨q, hq⟩ := h1 hpa
    rw [hp] at hq
    exact absurd hq (by simp)
  | wakeSend p hp hpa hrx =>
    refine ⟨?_, ?_⟩
    · rintro ⟨q, hq⟩
      simp at hq
    · intro hq hq2
      exact h2 p hp hpa
  | wakeFail p hp hpa hrx =>
    refine ⟨?_, ?_⟩
    · rintro ⟨q, hq⟩
      simp at hq
    · intro hq hq2
      exact h2 p hp hpa
  | consume p rest hrx hst hq =>
    refine ⟨?_, ?_⟩
    · rintro ⟨q, hq2⟩
      simp at hq2
    · rintro ⟨q, hq2⟩ hq3
      simp [hq2] at hq3
  | consumeEnd hrx hst =>
    refine ⟨?_, ?_⟩
    · rintro ⟨q, hq⟩
      simp at hq
    · rintro ⟨q, hq⟩ hq2
      simp [hq] at hq2
  | dropRx hrx =>
    refine ⟨?_, ?_⟩
    · rintro ⟨q, hq⟩
      simp at hq
    · rintro ⟨q, hq⟩ hq2
      simp [hq] at hq2
  | setFlagStop =>
    refine ⟨?_, ?_⟩
    · rintro ⟨q, hq⟩
      simp at hq
    · rintro ⟨q, hq⟩ hq2
      simp [hq] at hq2

/-! ### A concrete run with hi = 1, lo = 0

The states below trace the channel created by -H 1 (which defaults the low
watermark to hi / 2 = 0): the producer writes packet 1, starts to write
packet 2 and pauses, the consumer dequeues packet 1 (which does NOT clear
paused, because packets < 0 is unsatisfiable), and finally Rx is dropped. -/

/-- After the first successful write: one packet queued. -/
def sC2a : ChanState :=
  ⟨1, false, [1], ProdPhase.idle, true, false⟩

/-- The producer paused while trying to write packet 2. -/
def sC2b : ChanState :=
  ⟨1, true, [1], ProdPhase.waiting 2, true, false⟩

/-- The consumer dequeued packet 1; paused is still set. -/
def sC2c : ChanState :=
  ⟨0, true, [], ProdPhase.waiting 2, true, false⟩

/-- Rx has been dropped: packets zeroed, paused cleared. -/
def sC4pre : ChanState :=
  ⟨0, false, [], ProdPhase.waiting 2, false, false⟩

/-- The producer resumed and its send failed. -/
def sC4post : ChanState :=
  ⟨0, false, [], ProdPhase.idle, false, false⟩

/-- Helper: the first write. -/
theorem step_init_sC2a : Step 1 0 chanInit (Lab.sent 1) sC2a :=
  Step.sendNow chanInit 1 rfl (by decide) rfl rfl

/-- Helper: the second write pauses. -/
theorem step_sC2a_sC2b : Step 1 0 sC2a (Lab.enterWait 2) sC2b :=
  Step.pauseEnter sC2a 2 rfl (by decide)

/-- Helper: the consumer dequeues packet 1 without clearing paused. -/
theorem step_sC2b_sC2c : Step 1 0 sC2b (Lab.consumed 1) sC2c :=
  Step.consume sC2b 1 [] rfl rfl rfl

/-- Helper: Rx teardown. -/
theorem step_sC2c_sC4pre : Step 1 0 sC2c Lab.rxDropped sC4pre :=
  Step.dropRx sC2c rfl

/-- Helper: the woken producer's send fails on the closed FIFO. -/
theorem step_sC4 : Step 1 0 sC4pre (Lab.sendFailed 2) sC4post :=
  Step.wakeFail sC4pre 2 rfl rfl rfl

/-- Helper: sC2a is reachable. -/
theorem reach_sC2a : Reachable 1 0 sC2a :=
  Relation.ReflTransGen.single ⟨Lab.sent 1, step_init_sC2a⟩

/-- Helper: sC2c is reachable. -/
theorem reach_sC2c : Reachable 1 0 sC2c :=
  Relation.ReflTransGen.tail
    (Relation.ReflTransGen.tail reach_sC2a ⟨Lab.enterWait 2, step_sC2a_sC2b⟩)
    ⟨Lab.consumed 1, step_sC2b_sC2c⟩

/-- Helper: sC4pre is reachable. -/
theorem reach_sC4pre : Reachable 1 0 sC4pre :=
  Relation.ReflTransGen.tail reach_sC2c ⟨Lab.rxDropped, step_sC2c_sC4pre⟩

/-- C4 counterexample: with hi = 1 and lo = 0 a reachable resume of the
waiting producer (after Rx teardown) happens at packets = 0, and
packets < lo is false there, refuting the unconditional resume half of the
original claim. -/
theorem watermark_resume_counterexample :
    Reachable 1 0 sC4pre ∧
    Step 1 0 sC4pre (Lab.sendFailed 2) sC4post ∧
    sC4pre.prod = ProdPhase.waiting 2 ∧
    sC4post.prod = ProdPhase.idle ∧
    ¬ sC4pre.packets < 0 :=
  ⟨reach_sC4pre, step_sC4, rfl, rfl, by decide⟩

/-- C4 witness: the amended invariant applied to the concrete wait entry
from sC2a. -/
theorem chan_watermark_witness : 1 ≤ sC2a.packets :=
  (chan_watermark 1 0 sC2a sC2b (Lab.enterWait 2) reach_sC2a step_sC2a_sC2b).1
    ⟨2, rfl⟩

/-- C2: with hi = 1 and lo = 0 the channel reaches a state (sC2c) in which
the producer is parked in write_packet with paused set, and every state
reachable from it in which the Rx half is still alive keeps the producer
parked with paused set: the consumer resume condition packets < lo is
unsatisfiable for lo = 0, so the producer is never resumed by consumer
steps and pause/resume do not alternate. -/
theorem channel_lo_zero_permanent_stall :
    Reachable 1 0 sC2c ∧ sC2c.paused = true ∧
    sC2c.prod = ProdPhase.waiting 2 ∧
    (∀ s, Relation.ReflTransGen (chanStep 1 0) sC2c s → s.rxLive = true →
      s.paused = true ∧ s.prod = ProdPhase.waiting 2) := by
  refine ⟨reach_sC2c, rfl, rfl, ?_⟩
  intro s hs
  induction hs with
  | refl =>
    intro hrx
    exact ⟨rfl, rfl⟩
  | tail hab hbc ih =>
    intro hrx
    obtain ⟨l, hstep⟩ := hbc
    cases hstep with
    | sendNow p hp hlt hpa hrx2 =>
      obtain ⟨hpa2, hpr⟩ := ih hrx2
      simp [hp] at hpr
    | sendNowFail p hp hlt hpa hrx2 =>
      simp [hrx2] at hrx
    | pauseEnter p hp hge =>
      have h3 := ih hrx
      simp [hp] at h3
    | pauseEnterPre p hp hlt hpa =>
      have h3 := ih hrx
      simp [hp] at h3
    | wakeSend p hp hpa hrx2 =>
      obtain ⟨hpa2, hpr⟩ := ih hrx2
      simp [hpa] at hpa2
    | wakeFail p hp hpa hrx2 =>
      simp [hrx2] at hrx
    | consume p rest hrx2 hst hq =>
      obtain ⟨hpa2, hpr⟩ := ih hrx2
      refine ⟨?_, hpr⟩
      simp [hpa2]
    | consumeEnd hrx2 hst =>
      exact ih hrx
    | dropRx hrx2 =>
      simp at hrx
    | setFlagStop =>
      exact ih hrx

/-- C2 witness: the stall conclusion instantiated at sC2c itself. -/
theorem channel_lo_zero_permanent_stall_witness :
    sC2c.paused = true ∧ sC2c.prod = ProdPhase.waiting 2 :=
  channel_lo_zero_permanent_stall.2.2.2 sC2c Relation.ReflTransGen.refl rfl

/-- C9: a transition in which the FIFO send inside write_packet fails (the
Rx side is gone) leaves packets and the queue unchanged, and both before
and after the error return paused is false, exactly the state the wait
loop established. -/
theorem write_packet_send_fail (hi lo : Nat) (s s' : ChanState) (p : Nat)
    (hs : Step hi lo s (Lab.sendFailed p) s') :
    s'.packets = s.packets ∧ s'.queue = s.queue ∧ s.paused = false ∧
    s'.paused = false := by
  cases hs with
  | sendNowFail q hp hlt hpa hrx =>
    exact ⟨rfl, rfl, hpa, hpa⟩
  | wakeFail q hp hpa hrx =>
    exact ⟨rfl, rfl, hpa, hpa⟩

/-- State for the C9 witness: producer idle, Rx already dropped. -/
def sC9 : ChanState :=
  ⟨0, false, [], ProdPhase.idle, false, false⟩

/-- C9 witness: the theorem applied to a concrete failing send. -/
theorem write_packet_send_fail_witness :
    sC9.packets = sC9.packets ∧ sC9.queue = sC9.queue ∧
    sC9.paused = false ∧ sC9.paused = false :=
  write_packet_send_fail 1 0 sC9 sC9 7
    (Step.sendNowFail sC9 7 rfl (by decide) rfl rfl)
